import Mathlib

/-!
Shallow embedding of the core glare-detection engine of the GlareCheck
repository (src/src/core: geometry.py, reflection.py, reflection_base.py,
sun_calculations.py, glare_analysis.py), together with theorems settling the
frozen claims about it.

Modelling conventions:
* Continuous quantities that flow through trigonometric functions
  (azimuths, elevations, vectors, luminance) are modelled over ℝ.
* Data that the code only compares, adds, multiplies and divides
  (timestamps in minutes, reflection-profile samples, incidence-angle and
  DNI table columns) is modelled over ℚ: every IEEE float is a rational
  number, and the operations involved are field/order operations, so the
  embedding is faithful on these fields while keeping them executable.
* Python `math.atan2`, `%`, `np.clip`, `np.searchsorted` are embedded by
  `atan2`, `pymod`, explicit `max/min`, `List.findIdx`.
-/

namespace GlareCheck

noncomputable section Geometry

open Real

/-- Degrees to radians, `math.radians`. -/
def rad (x : ℝ) : ℝ := x * Real.pi / 180

/-- Radians to degrees, `math.degrees`. -/
def deg (x : ℝ) : ℝ := x * 180 / Real.pi

/-- Python `math.atan2 y x` on reals (reals have no signed zero, so the
`atan2(±0.0, -0.0)` cases collapse to the `x = 0` branches). -/
def atan2 (y x : ℝ) : ℝ :=
  if 0 < x then Real.arctan (y / x)
  else if x < 0 then
    (if 0 ≤ y then Real.arctan (y / x) + Real.pi else Real.arctan (y / x) - Real.pi)
  else if 0 < y then Real.pi / 2
  else if y < 0 then -(Real.pi / 2)
  else 0

/-- Python `a % b` on floats (for `b > 0` the result lies in `[0, b)`). -/
def pymod (a b : ℝ) : ℝ := a - b * ⌊a / b⌋

/-- A 3-component vector, `np.array([x, y, z])`. -/
structure Vec3 where
  x : ℝ
  y : ℝ
  z : ℝ

/-- The dot product `np.dot`. -/
def dotV (u v : Vec3) : ℝ := u.x * v.x + u.y * v.y + u.z * v.z

/-- Embeds `geometry.get_sun_vector`: unit vector from the sun towards the
ground, components `(sin az * cos el, -cos az * cos el, -sin el)`. -/
def get_sun_vector (sun_az sun_el : ℝ) : Vec3 :=
  ⟨Real.sin (rad sun_az) * Real.cos (rad sun_el),
   -Real.cos (rad sun_az) * Real.cos (rad sun_el),
   -Real.sin (rad sun_el)⟩

/-- Embeds `geometry.get_panel_normal`: outward normal of a panel,
components `(-sin az * sin tilt, cos az * sin tilt, cos tilt)`. -/
def get_panel_normal (pan_az pan_tilt : ℝ) : Vec3 :=
  ⟨-Real.sin (rad pan_az) * Real.sin (rad pan_tilt),
   Real.cos (rad pan_az) * Real.sin (rad pan_tilt),
   Real.cos (rad pan_tilt)⟩

/-- Embeds `np.clip x (-1) 1`. -/
def clip1 (x : ℝ) : ℝ := max (-1) (min 1 x)

/-- Embeds `geometry.calculate_incidence_angle`:
`degrees(acos(clip(-dot(sun_vec, panel_normal), -1, 1)))`. -/
def calculate_incidence_angle (sun_az sun_el pan_az pan_tilt : ℝ) : ℝ :=
  let sun_vec := get_sun_vector sun_az sun_el
  let panel_normal := get_panel_normal pan_az pan_tilt
  let cos_angle := clip1 (-(dotV sun_vec panel_normal))
  deg (Real.arccos cos_angle)

/-- Embeds `reflection.calculate_reflection_direction`: reflect the
incident vector `i = -sun_vec` via `r = i - 2 (i·n) n`, then read the result
back as `(degrees(atan2(x, y)) |> wrap to [0,360), degrees(asin z))`. -/
def calculate_reflection_direction (sun_az sun_el pan_az pan_tilt : ℝ) : ℝ × ℝ :=
  let sun_vec := get_sun_vector sun_az sun_el
  let panel_normal := get_panel_normal pan_az pan_tilt
  let incident : Vec3 := ⟨-sun_vec.x, -sun_vec.y, -sun_vec.z⟩
  let dot_product := dotV incident panel_normal
  let reflection : Vec3 :=
    ⟨incident.x - 2 * dot_product * panel_normal.x,
     incident.y - 2 * dot_product * panel_normal.y,
     incident.z - 2 * dot_product * panel_normal.z⟩
  let reflection_el := deg (Real.arcsin reflection.z)
  let reflection_az := deg (atan2 reflection.x reflection.y)
  (if reflection_az < 0 then reflection_az + 360 else reflection_az, reflection_el)

/-- Embeds `reflection.calculate_direct_irradiance_on_plane`:
`max(0, dni * cos(radians(incidence_angle)))`. -/
def calculate_direct_irradiance_on_plane (dni sun_el sun_az pan_tilt pan_az : ℝ) : ℝ :=
  let incidence_angle := calculate_incidence_angle sun_az sun_el pan_az pan_tilt
  let cos_factor := Real.cos (rad incidence_angle)
  max 0 (dni * cos_factor)

/-- Embeds `GlareAnalyzer.check_glare_hit`: wrap-aware azimuth difference,
plain elevation difference, Euclidean norm in radian space, compared against
the threshold converted to radians. -/
def check_glare_hit (reflection_az reflection_el target_az target_el threshold : ℝ) : Prop :=
  let refl_az_rad := rad reflection_az
  let refl_el_rad := rad reflection_el
  let target_az_rad := rad target_az
  let target_el_rad := rad target_el
  let delta_az0 := |refl_az_rad - target_az_rad|
  let delta_az := if Real.pi < delta_az0 then 2 * Real.pi - delta_az0 else delta_az0
  let delta_el := |refl_el_rad - target_el_rad|
  Real.sqrt (delta_az ^ 2 + delta_el ^ 2) ≤ rad threshold

end Geometry

/-- Claim C10: `check_glare_hit` is symmetric in its reflection and target
directions: swapping `(reflection_az, reflection_el)` with
`(target_az, target_el)` does not change the hit verdict. -/
theorem check_glare_hit_symm (ra re ta te t : ℝ) :
    check_glare_hit ra re ta te t ↔ check_glare_hit ta te ra re t := by
  simp only [check_glare_hit]
  rw [abs_sub_comm (rad ra) (rad ta), abs_sub_comm (rad re) (rad te)]

lemma clip1_le_one (x : ℝ) : clip1 x ≤ 1 :=
  max_le (by norm_num) (min_le_left _ _)

lemma neg_one_le_clip1 (x : ℝ) : -1 ≤ clip1 x := le_max_left _ _

lemma rad_deg (x : ℝ) : rad (deg x) = x := by
  unfold rad deg
  field_simp

/-- The cosine of the incidence angle returned by
`calculate_incidence_angle` is exactly the clipped dot product the function
took the arccos of. -/
lemma cos_rad_incidence (sun_az sun_el pan_az pan_tilt : ℝ) :
    Real.cos (rad (calculate_incidence_angle sun_az sun_el pan_az pan_tilt)) =
      clip1 (-(dotV (get_sun_vector sun_az sun_el) (get_panel_normal pan_az pan_tilt))) := by
  unfold calculate_incidence_angle
  rw [rad_deg]
  exact Real.cos_arccos (neg_one_le_clip1 _) (clip1_le_one _)

/-- Claim C9: for DNI ≥ 0, `calculate_direct_irradiance_on_plane` returns
`dni * cos(incidence angle)` whenever that product is non-negative, returns
exactly `0` when the cosine is negative (sun behind the panel), and is never
negative. -/
theorem direct_irradiance_on_plane_spec (sun_az sun_el pan_az pan_tilt dni : ℝ)
    (hdni : 0 ≤ dni) :
    0 ≤ calculate_direct_irradiance_on_plane dni sun_el sun_az pan_tilt pan_az ∧
    (0 ≤ dni * Real.cos (rad (calculate_incidence_angle sun_az sun_el pan_az pan_tilt)) →
      calculate_direct_irradiance_on_plane dni sun_el sun_az pan_tilt pan_az =
        dni * Real.cos (rad (calculate_incidence_angle sun_az sun_el pan_az pan_tilt))) ∧
    (Real.cos (rad (calculate_incidence_angle sun_az sun_el pan_az pan_tilt)) < 0 →
      calculate_direct_irradiance_on_plane dni sun_el sun_az pan_tilt pan_az = 0) := by
  unfold calculate_direct_irradiance_on_plane
  refine ⟨le_max_left _ _, fun h => max_eq_right h, fun hc => max_eq_left ?_⟩
  exact mul_nonpos_of_nonneg_of_nonpos hdni hc.le

/-- Witness for claim C9 at DNI = 1 and all angles 0. -/
theorem direct_irradiance_on_plane_spec_witness :
    (0 : ℝ) ≤ 1 ∧ 0 ≤ calculate_direct_irradiance_on_plane 1 0 0 0 0 :=
  ⟨by norm_num, (direct_irradiance_on_plane_spec 0 0 0 0 1 (by norm_num)).1⟩

lemma atan2_zero_zero : atan2 0 0 = 0 := by
  unfold atan2
  rw [if_neg (lt_irrefl 0), if_neg (lt_irrefl 0), if_neg (lt_irrefl 0), if_neg (lt_irrefl 0)]

lemma rad_ninety : rad 90 = Real.pi / 2 := by
  unfold rad
  ring

lemma rad_zero : rad 0 = 0 := by
  unfold rad
  ring

/-- Claim C2 (failing-input evaluation): reflecting a sun at azimuth 0,
elevation 90 off a horizontal panel (tilt 0) yields reflection
`(azimuth, elevation) = (0, -90)`, not the `((0+180) mod 360, 90) = (180, 90)`
the claim requires. -/
theorem reflection_direction_horizontal_eval :
    calculate_reflection_direction 0 90 0 0 = ((0 : ℝ), (-90 : ℝ)) ∧
    ((0 : ℝ), (-90 : ℝ)) ≠ ((180 : ℝ), (90 : ℝ)) := by
  constructor
  · have hsun : get_sun_vector 0 90 = ⟨0, 0, -1⟩ := by
      unfold get_sun_vector
      rw [rad_zero, rad_ninety]
      simp
    have hnorm : get_panel_normal 0 0 = ⟨0, 0, 1⟩ := by
      unfold get_panel_normal
      rw [rad_zero]
      simp
    unfold calculate_reflection_direction
    rw [hsun, hnorm]
    unfold dotV
    norm_num
    rw [atan2_zero_zero]
    have hdeg0 : deg 0 = 0 := by
      unfold deg
      ring
    rw [hdeg0, if_neg (lt_irrefl 0)]
    refine ⟨rfl, ?_⟩
    unfold deg
    field_simp
    ring
  · intro h
    have := congrArg Prod.fst h
    norm_num at this

section SunCalculations

/-- A Python `datetime` as consumed by `sun_calculations.generate_sun_positions`:
`instant` is the moment it denotes (minutes on an absolute axis; for a naive
datetime this is its wall-clock reading) and `tzinfo` is `none` for a naive
datetime. -/
structure PyDatetime where
  instant : ℚ
  tzinfo : Option ℤ

/-- The error raised by the input-validation prefix of
`generate_sun_positions`. -/
inductive SunValError where
  /-- `ValueError("Time resolution must be between 1 and 60 minutes")`. -/
  | badResolution : SunValError
  /-- `ValueError("End time must be after start time")`. -/
  | endNotAfterStart : SunValError
  /-- `TypeError` from Python comparing a naive with an aware datetime. -/
  | naiveComparison : SunValError
  /-- `ValueError("Datetime must have timezone information")` from `_ensure_utc`. -/
  | naiveDatetime : SunValError
deriving DecidableEq

/-- Embeds the input-validation prefix of
`sun_calculations.generate_sun_positions` (everything before the position
generation itself): resolution bounds check, `end_time <= start_time` check
(which in Python itself raises `TypeError` when exactly one operand is
naive), then `_ensure_utc` on both endpoints, which raises on a naive
datetime. -/
def generate_sun_positions_validate (start_time end_time : PyDatetime)
    (time_resolution_minutes : ℤ) : Except SunValError Unit :=
  if ¬(1 ≤ time_resolution_minutes ∧ time_resolution_minutes ≤ 60) then
    .error .badResolution
  else
    match start_time.tzinfo, end_time.tzinfo with
    | some _, some _ =>
      if end_time.instant ≤ start_time.instant then .error .endNotAfterStart
      else .ok ()
    | none, none =>
      if end_time.instant ≤ start_time.instant then .error .endNotAfterStart
      else .error .naiveDatetime
    | _, _ => .error .naiveComparison

/-- Claim C8: `generate_sun_positions` raises an input-validation error
exactly when the end is not after the start, or the resolution lies outside
[1, 60] minutes, or an endpoint lacks timezone information. -/
theorem generate_sun_positions_validate_iff (start_time end_time : PyDatetime)
    (time_resolution_minutes : ℤ) :
    generate_sun_positions_validate start_time end_time time_resolution_minutes ≠ .ok () ↔
      (end_time.instant ≤ start_time.instant ∨
        time_resolution_minutes < 1 ∨ 60 < time_resolution_minutes ∨
        start_time.tzinfo = none ∨ end_time.tzinfo = none) := by
  unfold generate_sun_positions_validate
  rcases hs : start_time.tzinfo with _ | zs <;>
    rcases he : end_time.tzinfo with _ | ze <;>
    split_ifs <;>
    first
      | (simp_all; omega)
      | simp_all

end SunCalculations

section Aggregation

/-- The projection of a `GlareEvent` that
`GlareAnalyzer.aggregate_glare_periods` actually reads when it builds its
working DataFrame: timestamp (minutes), observation-point number, PV-area
name, intensity and per-event duration. Timestamps and intensities are
modelled over ℚ (floats are rationals; only order and field operations are
applied to them). -/
structure AggEvent where
  timestamp : ℚ
  op_number : ℤ
  pv_area_name : String
  intensity : ℚ
  duration_minutes : ℚ

/-- One row of the DataFrame returned by `aggregate_glare_periods`. -/
structure GlarePeriod where
  op_number : ℤ
  pv_area_name : String
  start_time : ℚ
  end_time : ℚ
  duration_minutes : ℚ
  average_intensity : ℚ
deriving DecidableEq

/-- The lexicographic `(op_number, pv_area_name, timestamp)` order used by
`df.sort_values(['op_number', 'pv_area_name', 'timestamp'])`. -/
def aggKeyLe (a b : AggEvent) : Bool :=
  decide (a.op_number < b.op_number) ||
    (decide (a.op_number = b.op_number) &&
      (decide (a.pv_area_name < b.pv_area_name) ||
        (decide (a.pv_area_name = b.pv_area_name) && decide (a.timestamp ≤ b.timestamp))))

/-- Insertion step of the sort on the `(op, pv, timestamp)` key. -/
def insertAgg (e : AggEvent) : List AggEvent → List AggEvent
  | [] => [e]
  | x :: xs => if aggKeyLe x e then x :: insertAgg e xs else e :: x :: xs

/-- Embeds `df.sort_values(['op_number', 'pv_area_name', 'timestamp'])` as an
insertion sort on the same key (the claims under verification do not depend
on the tie-breaking of pandas' unstable quicksort: rows that compare equal on
the full key are interchangeable for the period computation). -/
def sortAggEvents : List AggEvent → List AggEvent
  | [] => []
  | e :: es => insertAgg e (sortAggEvents es)

/-- Equality of the `groupby(['op_number', 'pv_area_name'])` key. -/
def sameAggKey (a b : AggEvent) : Bool :=
  decide (a.op_number = b.op_number) && decide (a.pv_area_name = b.pv_area_name)

/-- Splits the key-sorted event list into maximal runs with the same
`(op, pv)` key — the groups of `df.groupby(['op_number', 'pv_area_name'])`
(on a key-sorted list the runs are exactly the groups, and they appear in
sorted key order, as pandas' `groupby(sort=True)` yields them). -/
def groupAggEvents : List AggEvent → List (List AggEvent)
  | [] => []
  | e :: es =>
    match groupAggEvents es with
    | [] => [[e]]
    | [] :: gs => [e] :: [] :: gs
    | (x :: xs) :: gs =>
      if sameAggKey e x then (e :: x :: xs) :: gs else [e] :: (x :: xs) :: gs

/-- The period record appended by `aggregate_glare_periods`, including its
`period_count > 0` guard on the average. -/
def mkPeriod (op : ℤ) (pv : String) (start_t end_t s : ℚ) (count : ℕ) : GlarePeriod :=
  ⟨op, pv, start_t, end_t, end_t - start_t, if count = 0 then 0 else s / count⟩

/-- The per-group loop of `aggregate_glare_periods` from its second event
onwards. State: `period_start`, `period_end`, `period_intensity_sum`,
`period_count`; a gap strictly above the threshold closes the current period
and opens a fresh one at the current event; the final period is emitted when
the events run out (`period_count > 0` always holds on entry). -/
def aggLoop (gap : ℚ) (op : ℤ) (pv : String) :
    ℚ → ℚ → ℚ → ℕ → List AggEvent → List GlarePeriod
  | start_t, end_t, s, count, [] =>
    if count = 0 then [] else [mkPeriod op pv start_t end_t s count]
  | start_t, end_t, s, count, e :: rest =>
    if gap < e.timestamp - end_t then
      mkPeriod op pv start_t end_t s count ::
        aggLoop gap op pv e.timestamp e.timestamp e.intensity 1 rest
    else
      aggLoop gap op pv start_t e.timestamp (s + e.intensity) (count + 1) rest

/-- Processing of one `(op, pv)` group: the loop's first iteration only
installs the first event as the open period, so it is folded into the
initial state. -/
def processAggGroup (gap : ℚ) : List AggEvent → List GlarePeriod
  | [] => []
  | e :: rest => aggLoop gap e.op_number e.pv_area_name e.timestamp e.timestamp e.intensity 1 rest

/-- Embeds `GlareAnalyzer.aggregate_glare_periods`: empty input gives an
empty DataFrame; otherwise sort by `(op, pv, timestamp)`, group by
`(op, pv)` and run the period state machine on each group. -/
def aggregate_glare_periods (glare_events : List AggEvent)
    (gap_threshold_minutes : ℚ) : List GlarePeriod :=
  match glare_events with
  | [] => []
  | _ =>
    (groupAggEvents (sortAggEvents glare_events)).flatMap
      (processAggGroup gap_threshold_minutes)

lemma insertAgg_ne_nil (e : AggEvent) (l : List AggEvent) : insertAgg e l ≠ [] := by
  cases l with
  | nil => simp [insertAgg]
  | cons x xs =>
    unfold insertAgg
    split <;> simp

lemma sortAggEvents_ne_nil (l : List AggEvent) (h : l ≠ []) : sortAggEvents l ≠ [] := by
  cases l with
  | nil => exact absurd rfl h
  | cons e es => exact insertAgg_ne_nil e (sortAggEvents es)

lemma groupAggEvents_ne_nil (l : List AggEvent) (h : l ≠ []) : groupAggEvents l ≠ [] := by
  cases l with
  | nil => exact absurd rfl h
  | cons e es =>
    unfold groupAggEvents
    rcases groupAggEvents es with _ | ⟨_ | ⟨x, xs⟩, gs⟩ <;> simp
    split <;> simp

lemma groupAggEvents_mem_ne_nil (l : List AggEvent) :
    ∀ g ∈ groupAggEvents l, g ≠ [] := by
  induction l with
  | nil => simp [groupAggEvents]
  | cons e es ih =>
    intro g hg
    unfold groupAggEvents at hg
    rcases heq : groupAggEvents es with _ | ⟨g0, gs⟩
    · rw [heq] at hg
      simp at hg
      simp [hg]
    · rw [heq] at hg
      rcases g0 with _ | ⟨x, xs⟩
      · exact absurd rfl (ih [] (heq ▸ List.mem_cons_self _ _))
      · dsimp only at hg
        by_cases hk : sameAggKey e x = true
        · rw [if_pos hk] at hg
          rcases List.mem_cons.mp hg with hg | hg
          · simp [hg]
          · exact ih g (heq ▸ List.mem_cons_of_mem _ hg)
        · rw [if_neg hk] at hg
          rcases List.mem_cons.mp hg with hg | hg
          · simp [hg]
          · exact ih g (heq ▸ hg)

lemma aggLoop_ne_nil (gap : ℚ) (op : ℤ) (pv : String) :
    ∀ (rest : List AggEvent) (start_t end_t s : ℚ) (count : ℕ),
      count ≠ 0 → aggLoop gap op pv start_t end_t s count rest ≠ [] := by
  intro rest
  induction rest with
  | nil =>
    intro start_t end_t s count hc
    simp [aggLoop, hc]
  | cons e es ih =>
    intro start_t end_t s count hc
    unfold aggLoop
    split
    · simp
    · exact ih _ _ _ _ (Nat.succ_ne_zero count)

lemma processAggGroup_ne_nil (gap : ℚ) (g : List AggEvent) (h : g ≠ []) :
    processAggGroup gap g ≠ [] := by
  cases g with
  | nil => exact absurd rfl h
  | cons e rest => exact aggLoop_ne_nil gap _ _ rest _ _ _ _ one_ne_zero

lemma aggregate_ne_nil (evs : List AggEvent) (gap : ℚ) (h : evs ≠ []) :
    aggregate_glare_periods evs gap ≠ [] := by
  unfold aggregate_glare_periods
  match evs, h with
  | e :: es, _ =>
    rcases heq : groupAggEvents (sortAggEvents (e :: es)) with _ | ⟨g0, gs⟩
    · exact absurd heq (groupAggEvents_ne_nil _ (sortAggEvents_ne_nil _ (by simp)))
    · have hg0 : g0 ≠ [] :=
        groupAggEvents_mem_ne_nil _ g0 (heq ▸ List.mem_cons_self _ _)
      simp only [List.flatMap_cons]
      exact List.append_ne_nil_of_left_ne_nil (processAggGroup_ne_nil gap g0 hg0) _

/-- Claim C3: for two events of the same `(observer, PV-area)` group,
a gap at or below the threshold merges them into exactly one period spanning
both timestamps, a gap strictly above the threshold yields exactly two
periods, and the open period is always flushed at end of input. -/
theorem aggregate_two_event_spec (e1 e2 : AggEvent) (gap : ℚ)
    (hop : e1.op_number = e2.op_number) (hpv : e1.pv_area_name = e2.pv_area_name)
    (hts : e1.timestamp ≤ e2.timestamp) (hgap0 : 0 ≤ gap) :
    (e2.timestamp - e1.timestamp ≤ gap →
      aggregate_glare_periods [e1, e2] gap =
        [⟨e1.op_number, e1.pv_area_name, e1.timestamp, e2.timestamp,
          e2.timestamp - e1.timestamp, (e1.intensity + e2.intensity) / 2⟩]) ∧
    (gap < e2.timestamp - e1.timestamp →
      aggregate_glare_periods [e1, e2] gap =
        [⟨e1.op_number, e1.pv_area_name, e1.timestamp, e1.timestamp, 0, e1.intensity⟩,
         ⟨e2.op_number, e2.pv_area_name, e2.timestamp, e2.timestamp, 0, e2.intensity⟩]) ∧
    (∀ evs : List AggEvent, evs ≠ [] → aggregate_glare_periods evs gap ≠ []) := by
  rcases e1 with ⟨t1, op1, pv1, i1, d1⟩
  rcases e2 with ⟨t2, op2, pv2, i2, d2⟩
  simp only at hop hpv hts ⊢
  subst hop hpv
  refine ⟨?_, ?_, fun evs h => aggregate_ne_nil evs gap h⟩
  · intro hmerge
    rcases eq_or_lt_of_le hts with heq | hlt
    · subst heq
      have hkey : aggKeyLe ⟨t1, op1, pv1, i2, d2⟩ ⟨t1, op1, pv1, i1, d1⟩ = true := by
        simp [aggKeyLe]
      simp [aggregate_glare_periods, sortAggEvents, insertAgg, hkey, groupAggEvents,
        sameAggKey, processAggGroup, aggLoop, mkPeriod]
      rw [if_neg (not_lt.mpr hgap0)]
      simp [add_comm]
    · have hkey : aggKeyLe ⟨t2, op1, pv1, i2, d2⟩ ⟨t1, op1, pv1, i1, d1⟩ = false := by
        simp [aggKeyLe]
        linarith
      simp [aggregate_glare_periods, sortAggEvents, insertAgg, hkey, groupAggEvents,
        sameAggKey, processAggGroup, aggLoop, mkPeriod,
        if_neg (show ¬(gap < t2 - t1) by linarith)]
  · intro hsplit
    have hlt : t1 < t2 := by linarith
    have hkey : aggKeyLe ⟨t2, op1, pv1, i2, d2⟩ ⟨t1, op1, pv1, i1, d1⟩ = false := by
      simp [aggKeyLe]
      linarith
    simp [aggregate_glare_periods, sortAggEvents, insertAgg, hkey, groupAggEvents,
      sameAggKey, processAggGroup, aggLoop, mkPeriod, if_pos hsplit]

/-- Witness for claim C3: two events 3 minutes apart with gap threshold 5
merge into the single period [0, 3] with mean intensity 3. -/
theorem aggregate_two_event_spec_witness :
    aggregate_glare_periods [⟨0, 1, "A", 2, 1⟩, ⟨3, 1, "A", 4, 1⟩] 5 =
      [⟨1, "A", 0, 3, 3, 3⟩] := by
  have h :=
    (aggregate_two_event_spec ⟨0, 1, "A", 2, 1⟩ ⟨3, 1, "A", 4, 1⟩ 5 rfl rfl
      (by norm_num) (by norm_num)).1 (by norm_num)
  rw [h]
  norm_num

/-- A gap-free dataset: `n` events of one `(op, pv)` group spaced exactly
`res` minutes apart starting at `t0`, all with intensity `c` and the
source's default per-event duration of 1 minute. -/
def chainEvents (op : ℤ) (pv : String) (c res : ℚ) : ℕ → ℚ → List AggEvent
  | 0, _ => []
  | n + 1, t => ⟨t, op, pv, c, 1⟩ :: chainEvents op pv c res n (t + res)

lemma sortAggEvents_chain (op : ℤ) (pv : String) (c res : ℚ) (hres : 0 < res) :
    ∀ (n : ℕ) (t : ℚ),
      sortAggEvents (chainEvents op pv c res n t) = chainEvents op pv c res n t := by
  intro n
  induction n with
  | zero =>
    intro t
    rfl
  | succ m ih =>
    intro t
    show insertAgg ⟨t, op, pv, c, 1⟩ (sortAggEvents (chainEvents op pv c res m (t + res))) = _
    rw [ih (t + res)]
    cases m with
    | zero => rfl
    | succ k =>
      have hkey : aggKeyLe ⟨t + res, op, pv, c, 1⟩ ⟨t, op, pv, c, 1⟩ = false := by
        simp [aggKeyLe]
        linarith
      show insertAgg ⟨t, op, pv, c, 1⟩
          (⟨t + res, op, pv, c, 1⟩ :: chainEvents op pv c res k (t + res + res)) = _
      simp [insertAgg, hkey, chainEvents]

lemma groupAggEvents_chain (op : ℤ) (pv : String) (c res : ℚ) :
    ∀ (n : ℕ) (t : ℚ), 1 ≤ n →
      groupAggEvents (chainEvents op pv c res n t) = [chainEvents op pv c res n t] := by
  intro n
  induction n with
  | zero =>
    intro t h
    exact absurd h (by omega)
  | succ m ih =>
    intro t _
    cases m with
    | zero => rfl
    | succ k =>
      have hih := ih (t + res) (by omega)
      show groupAggEvents
          (⟨t, op, pv, c, 1⟩ :: chainEvents op pv c res (k + 1) (t + res)) = _
      rw [groupAggEvents, hih]
      show (if sameAggKey ⟨t, op, pv, c, 1⟩ ⟨t + res, op, pv, c, 1⟩ then _ else _) = _
      simp [sameAggKey, chainEvents]

lemma aggLoop_chain (gap : ℚ) (op : ℤ) (pv : String) (c res : ℚ) (hgap : res ≤ gap) :
    ∀ (m : ℕ) (start_t end_t s : ℚ) (count : ℕ), count ≠ 0 →
      aggLoop gap op pv start_t end_t s count (chainEvents op pv c res m (end_t + res)) =
        [mkPeriod op pv start_t (end_t + m * res) (s + m * c) (count + m)] := by
  intro m
  induction m with
  | zero =>
    intro start_t end_t s count hc
    show (if count = 0 then [] else [mkPeriod op pv start_t end_t s count]) = _
    rw [if_neg hc]
    norm_num
  | succ k ih =>
    intro start_t end_t s count hc
    show (if gap < end_t + res - end_t then _ else _) = _
    rw [if_neg (show ¬(gap < end_t + res - end_t) by rw [add_sub_cancel_left]; linarith)]
    rw [show end_t + res + res = (end_t + res) + res from rfl]
    rw [ih start_t (end_t + res) (s + c) (count + 1) (by omega)]
    rw [show count + 1 + k = count + (k + 1) from by omega]
    rw [show end_t + res + (k : ℚ) * res = end_t + ((k : ℕ) + 1 : ℕ) * res from by
      push_cast; ring]
    rw [show s + c + (k : ℚ) * c = s + ((k : ℕ) + 1 : ℕ) * c from by push_cast; ring]

lemma processAggGroup_chain (gap : ℚ) (op : ℤ) (pv : String) (c res : ℚ)
    (hgap : res ≤ gap) (n : ℕ) (t : ℚ) :
    processAggGroup gap (chainEvents op pv c res (n + 1) t) =
      [mkPeriod op pv t (t + n * res) (c + n * c) (1 + n)] :=
  aggLoop_chain gap op pv c res hgap n t t c 1 one_ne_zero

/-- Claim C4 (counterexample): two events exactly 5 minutes apart (the
resolution) with gap threshold 5 produce one period of summed duration 5,
not `eventCount × resolution = 10`. -/
theorem aggregate_gap_free_counterexample :
    ((aggregate_glare_periods (chainEvents 1 "A" 1 5 2 0) 5).map
        (fun p => p.duration_minutes)).sum = 5 ∧ (5 : ℚ) ≠ 2 * 5 := by
  constructor
  · have hstep : aggregate_glare_periods (chainEvents 1 "A" 1 5 2 0) 5 =
        (groupAggEvents (sortAggEvents (chainEvents 1 "A" 1 5 2 0))).flatMap
          (processAggGroup 5) := rfl
    rw [hstep, sortAggEvents_chain 1 "A" 1 5 (by norm_num) 2 0,
      groupAggEvents_chain 1 "A" 1 5 2 0 (by norm_num)]
    simp only [List.flatMap_cons, List.flatMap_nil, List.append_nil]
    rw [processAggGroup_chain 5 1 "A" 1 5 (by norm_num) 1 0]
    norm_num [mkPeriod]
  · norm_num

/-- Claim C4 (amended): over a gap-free dataset of `n ≥ 1` events of one
`(observer, PV-area)` group spaced exactly `res` minutes apart (with
`res ≤ gap threshold`), the summed `duration_minutes` of the produced
periods equals `(n - 1) * res`, not `n * res`: period duration is the
difference between last and first member timestamps. -/
theorem aggregate_gap_free_durations (op : ℤ) (pv : String) (c t0 res gap : ℚ) (n : ℕ)
    (hn : 1 ≤ n) (hres : 0 < res) (hgap : res ≤ gap) :
    ((aggregate_glare_periods (chainEvents op pv c res n t0) gap).map
        (fun p => p.duration_minutes)).sum = ((n : ℚ) - 1) * res := by
  obtain ⟨m, rfl⟩ : ∃ m, n = m + 1 := ⟨n - 1, by omega⟩
  have hstep : aggregate_glare_periods (chainEvents op pv c res (m + 1) t0) gap =
      (groupAggEvents (sortAggEvents (chainEvents op pv c res (m + 1) t0))).flatMap
        (processAggGroup gap) := rfl
  rw [hstep, sortAggEvents_chain op pv c res hres (m + 1) t0,
    groupAggEvents_chain op pv c res (m + 1) t0 (by omega)]
  simp only [List.flatMap_cons, List.flatMap_nil, List.append_nil]
  rw [processAggGroup_chain gap op pv c res hgap m t0]
  simp only [mkPeriod, List.map_cons, List.map_nil, List.sum_cons, List.sum_nil]
  push_cast
  ring

/-- Witness for the amended claim C4: three events 5 minutes apart with gap
threshold 5 give total period duration (3 - 1) × 5 = 10. -/
theorem aggregate_gap_free_durations_witness :
    ((aggregate_glare_periods (chainEvents 1 "A" 1 5 3 0) 5).map
        (fun p => p.duration_minutes)).sum = ((3 : ℚ) - 1) * 5 :=
  aggregate_gap_free_durations 1 "A" 1 0 5 5 3 (by norm_num) (by norm_num) (by norm_num)

end Aggregation

section Profile

/-- Embeds `reflection_base.ReflectionProfile`: the constructor stores the
angle and coefficient arrays sorted by angle (equal lengths are enforced,
sorting is by `np.argsort` on the angles), so theorems below take the sorted
and equal-length facts as hypotheses. Samples are modelled over ℚ. -/
structure ReflectionProfile where
  angles : List ℚ
  coefficients : List ℚ
  module_type : ℤ

/-- Embeds `ReflectionProfile.get_coefficient`: clip the angle to [0, 90];
return the first sample when at or below the first angle and the last sample
when at or above the last angle (in that order); otherwise interpolate
linearly between the samples bracketing the angle, located with
`np.searchsorted` (leftmost index whose angle is ≥ the query).
The source indexes `self.angles[0]` unconditionally and raises `IndexError`
on an empty profile; the empty case is mapped to 0 here and every theorem
below assumes a non-empty profile. -/
def get_coefficient (p : ReflectionProfile) (angle : ℚ) : ℚ :=
  let a := max 0 (min 90 angle)
  if p.angles = [] then 0
  else if a ≤ p.angles.headD 0 then p.coefficients.headD 0
  else if p.angles.getLastD 0 ≤ a then p.coefficients.getLastD 0
  else
    let idx := p.angles.findIdx (fun v => decide (a ≤ v))
    let x0 := p.angles.getD (idx - 1) 0
    let x1 := p.angles.getD idx 0
    let y0 := p.coefficients.getD (idx - 1) 0
    let y1 := p.coefficients.getD idx 0
    y0 + ((a - x0) / (x1 - x0)) * (y1 - y0)

/-- Claim C7 (counterexample): the profile with samples (-10°, 0) and
(50°, 1) — coefficients all in [0, 1] — evaluated at the out-of-range angle
-5° returns the interpolated value 1/6, not either boundary sample's value:
clipping -5 to 0 lands strictly between the sample angles -10 and 50. -/
theorem get_coefficient_out_of_range_counterexample :
    get_coefficient ⟨[-10, 50], [0, 1], 0⟩ (-5) = 1 / 6 ∧
    (∀ c ∈ (⟨[-10, 50], [0, 1], 0⟩ : ReflectionProfile).coefficients, 0 ≤ c ∧ c ≤ 1) ∧
    (1 / 6 : ℚ) ≠ (⟨[-10, 50], [0, 1], 0⟩ : ReflectionProfile).coefficients.headD 0 ∧
    (1 / 6 : ℚ) ≠ (⟨[-10, 50], [0, 1], 0⟩ : ReflectionProfile).coefficients.getLastD 0 := by
  refine ⟨?_, by decide, by norm_num, by norm_num⟩
  have hclip : max (0 : ℚ) (min 90 (-5)) = 0 := by
    rw [min_eq_right (by norm_num : (-5 : ℚ) ≤ 90), max_eq_left (by norm_num : (-5 : ℚ) ≤ 0)]
  simp only [get_coefficient, hclip]
  rw [if_neg (by simp : ¬([(-10 : ℚ), 50] = []))]
  norm_num [List.headD, List.getLastD, List.findIdx, List.findIdx.go, List.getD]

lemma headD_mem {l : List ℚ} (h : l ≠ []) : l.headD 0 ∈ l := by
  cases l with
  | nil => exact absurd rfl h
  | cons a t => exact List.mem_cons_self a t

lemma getLastD_mem {l : List ℚ} (h : l ≠ []) : l.getLastD 0 ∈ l := by
  rw [List.getLastD_eq_getLast?, List.getLast?_eq_getLast l h]
  exact List.getLast_mem h

lemma headD_eq_get {l : List ℚ} (h : l ≠ []) :
    l.headD 0 = l.get ⟨0, List.length_pos.mpr h⟩ := by
  cases l with
  | nil => exact absurd rfl h
  | cons a t => rfl

lemma getLastD_eq_get {l : List ℚ} (h : l ≠ []) (hlt : l.length - 1 < l.length) :
    l.getLastD 0 = l.get ⟨l.length - 1, hlt⟩ := by
  rw [List.getLastD_eq_getLast?, List.getLast?_eq_getLast l h,
    List.getLast_eq_getElem l h]
  rfl

lemma get_coefficient_eq_head (p : ReflectionProfile) (angle : ℚ)
    (hne : p.angles ≠ []) (h1 : max 0 (min 90 angle) ≤ p.angles.headD 0) :
    get_coefficient p angle = p.coefficients.headD 0 := by
  simp only [get_coefficient]
  rw [if_neg hne, if_pos h1]

lemma get_coefficient_eq_last (p : ReflectionProfile) (angle : ℚ)
    (hne : p.angles ≠ []) (h1 : ¬(max 0 (min 90 angle) ≤ p.angles.headD 0))
    (h2 : p.angles.getLastD 0 ≤ max 0 (min 90 angle)) :
    get_coefficient p angle = p.coefficients.getLastD 0 := by
  simp only [get_coefficient]
  rw [if_neg hne, if_neg h1, if_pos h2]

/-- In the interior case `headD < angle < getLastD` (angle already within
[0, 90]), `get_coefficient` interpolates between the two samples bracketing
the angle: `searchsorted` returns the leftmost index whose sample angle is
at or above the query, and the sample before it is strictly below it. -/
lemma get_coefficient_interior (p : ReflectionProfile) (a : ℚ)
    (hne : p.angles ≠ []) (hclamp : max 0 (min 90 a) = a)
    (hga : p.angles.headD 0 < a) (hgb : a < p.angles.getLastD 0) :
    ∃ i : ℕ, i + 1 < p.angles.length ∧
      p.angles.getD i 0 < a ∧ a ≤ p.angles.getD (i + 1) 0 ∧
      get_coefficient p a =
        p.coefficients.getD i 0 +
          ((a - p.angles.getD i 0) / (p.angles.getD (i + 1) 0 - p.angles.getD i 0)) *
            (p.coefficients.getD (i + 1) 0 - p.coefficients.getD i 0) := by
  have hn0 : 0 < p.angles.length := List.length_pos.mpr hne
  have hlast : p.angles.getLastD 0 = p.angles.get ⟨p.angles.length - 1, by omega⟩ :=
    getLastD_eq_get hne (by omega)
  have hhead : p.angles.headD 0 = p.angles.get ⟨0, hn0⟩ := headD_eq_get hne
  have hex : ∃ x ∈ p.angles, (fun v => decide (a ≤ v)) x = true := by
    refine ⟨p.angles.get ⟨p.angles.length - 1, by omega⟩, List.get_mem _ _ _, ?_⟩
    simp only [decide_eq_true_eq]
    rw [hlast] at hgb
    linarith
  have hidx : p.angles.findIdx (fun v => decide (a ≤ v)) < p.angles.length :=
    List.findIdx_lt_length_of_exists hex
  set idx := p.angles.findIdx (fun v => decide (a ≤ v)) with hidxdef
  have hple : a ≤ p.angles.get ⟨idx, hidx⟩ := by
    have := @List.findIdx_getElem _ (fun v => decide (a ≤ v)) p.angles hidx
    simpa using this
  have hpos : 0 < idx := by
    rcases Nat.eq_zero_or_pos idx with h | h
    · exfalso
      rw [hhead] at hga
      have h3 : a ≤ p.angles.get ⟨0, hn0⟩ := by
        have h2 := hple
        simp_rw [h] at h2
        exact h2
      linarith
    · exact h
  have hprevlt : idx - 1 < idx := by omega
  have hprev : ¬(a ≤ p.angles.get ⟨idx - 1, by omega⟩) := by
    have := List.not_of_lt_findIdx (p := fun v => decide (a ≤ v)) hprevlt
    simpa using this
  refine ⟨idx - 1, by omega, ?_, ?_, ?_⟩
  · rw [List.getD_eq_getElem _ _ (by omega : idx - 1 < p.angles.length)]
    have h4 := not_le.mp hprev
    simpa [List.get_eq_getElem] using h4
  · rw [show idx - 1 + 1 = idx from by omega,
      List.getD_eq_getElem _ _ hidx]
    simpa [List.get_eq_getElem] using hple
  · have h1 : ¬(max 0 (min 90 a) ≤ p.angles.headD 0) := by
      rw [hclamp]
      linarith
    have h2 : ¬(p.angles.getLastD 0 ≤ max 0 (min 90 a)) := by
      rw [hclamp]
      linarith
    simp only [get_coefficient]
    rw [if_neg hne, if_neg h1, if_neg h2, hclamp]
    rw [show idx - 1 + 1 = idx from by omega]

/-- Claim C7 (amended): for a non-empty, angle-sorted `ReflectionProfile`
whose coefficient samples lie in [0, 1] and whose sample angles lie in
[0, 90]: `get_coefficient` always returns a value in [0, 1]; inputs outside
[0, 90] are clamped to the corresponding boundary and return that boundary
sample's value; an angle at or below the first sample returns the first
sample's value and one at or above the last sample returns the last
sample's value; strictly between the first and last sample it linearly
interpolates between the two bracketing samples. -/
theorem get_coefficient_spec (p : ReflectionProfile) (angle : ℚ)
    (hlen : p.angles.length = p.coefficients.length)
    (hne : p.angles ≠ [])
    (hcoef : ∀ c ∈ p.coefficients, 0 ≤ c ∧ c ≤ 1)
    (hang : ∀ x ∈ p.angles, 0 ≤ x ∧ x ≤ 90) :
    (0 ≤ get_coefficient p angle ∧ get_coefficient p angle ≤ 1) ∧
    (angle < 0 → get_coefficient p angle = p.coefficients.headD 0) ∧
    (90 < angle → p.angles.headD 0 < 90 →
      get_coefficient p angle = p.coefficients.getLastD 0) ∧
    (0 ≤ angle → angle ≤ 90 → angle ≤ p.angles.headD 0 →
      get_coefficient p angle = p.coefficients.headD 0) ∧
    (0 ≤ angle → angle ≤ 90 → p.angles.headD 0 < angle → p.angles.getLastD 0 ≤ angle →
      get_coefficient p angle = p.coefficients.getLastD 0) ∧
    (0 ≤ angle → angle ≤ 90 → p.angles.headD 0 < angle → angle < p.angles.getLastD 0 →
      ∃ i : ℕ, i + 1 < p.angles.length ∧
        p.angles.getD i 0 < angle ∧ angle ≤ p.angles.getD (i + 1) 0 ∧
        get_coefficient p angle =
          p.coefficients.getD i 0 +
            ((angle - p.angles.getD i 0) /
              (p.angles.getD (i + 1) 0 - p.angles.getD i 0)) *
              (p.coefficients.getD (i + 1) 0 - p.coefficients.getD i 0)) := by
  have hcne : p.coefficients ≠ [] := by
    intro h
    apply hne
    rw [← List.length_eq_zero, hlen, h]
    rfl
  have hheadb := hcoef _ (headD_mem hcne)
  have hlastb := hcoef _ (getLastD_mem hcne)
  have hanghead := hang _ (headD_mem hne)
  have hanglast := hang _ (getLastD_mem hne)
  have hclip_lo : ∀ x : ℚ, x < 0 → max 0 (min 90 x) = 0 := fun x hx => by
    rw [min_eq_right (by linarith), max_eq_left (by linarith)]
  have hclip_hi : ∀ x : ℚ, 90 < x → max 0 (min 90 x) = 90 := fun x hx => by
    rw [min_eq_left (by linarith), max_eq_right (by norm_num)]
  have hclip_id : ∀ x : ℚ, 0 ≤ x → x ≤ 90 → max 0 (min 90 x) = x := fun x h0 h90 => by
    rw [min_eq_right h90, max_eq_right h0]
  refine ⟨?_, ?_, ?_, ?_, ?_, ?_⟩
  · -- range [0, 1] for every input
    by_cases hb1 : max 0 (min 90 angle) ≤ p.angles.headD 0
    · rw [get_coefficient_eq_head p angle hne hb1]
      exact hheadb
    · by_cases hb2 : p.angles.getLastD 0 ≤ max 0 (min 90 angle)
      · rw [get_coefficient_eq_last p angle hne hb1 hb2]
        exact hlastb
      · set a := max 0 (min 90 angle) with hadef
        have ha0 : 0 ≤ a := le_max_left _ _
        have ha90 : a ≤ 90 := by
          apply max_le (by norm_num) (min_le_left _ _)
        have hclampa : max 0 (min 90 a) = a := hclip_id a ha0 ha90
        have hgeta : get_coefficient p angle = get_coefficient p a := by
          simp only [get_coefficient, hclampa, ← hadef]
        obtain ⟨i, hi, hxa, hax, hval⟩ :=
          get_coefficient_interior p a hne hclampa (not_le.mp hb1) (not_le.mp hb2)
        rw [hgeta, hval]
        have hilen : i < p.coefficients.length := by omega
        have hi1len : i + 1 < p.coefficients.length := by omega
        have hy0 := hcoef _ (List.getD_eq_getElem _ 0 hilen ▸ List.getElem_mem hilen)
        have hy1 := hcoef _ (List.getD_eq_getElem _ 0 hi1len ▸ List.getElem_mem hi1len)
        have hx01 : p.angles.getD i 0 < p.angles.getD (i + 1) 0 := lt_of_lt_of_le hxa hax
        set x0 := p.angles.getD i 0
        set x1 := p.angles.getD (i + 1) 0
        set y0 := p.coefficients.getD i 0
        set y1 := p.coefficients.getD (i + 1) 0
        have ht0 : 0 < (a - x0) / (x1 - x0) := div_pos (by linarith) (by linarith)
        have ht1 : (a - x0) / (x1 - x0) ≤ 1 := by
          rw [div_le_one (by linarith)]
          linarith
        constructor
        · nlinarith [mul_nonneg ht0.le hy1.1, mul_nonneg (sub_nonneg.mpr ht1) hy0.1]
        · nlinarith [mul_nonneg ht0.le (sub_nonneg.mpr hy1.2),
            mul_nonneg (sub_nonneg.mpr ht1) (sub_nonneg.mpr hy0.2)]
  · -- below 0: clamp to 0, which is at or below the first sample angle
    intro hlo
    exact get_coefficient_eq_head p angle hne (by rw [hclip_lo angle hlo]; exact hanghead.1)
  · -- above 90: clamp to 90, at or above the last sample angle
    intro hhi hh90
    apply get_coefficient_eq_last p angle hne
    · rw [hclip_hi angle hhi]
      linarith
    · rw [hclip_hi angle hhi]
      exact hanglast.2
  · -- at or below the first sample
    intro h0 h90 hle
    exact get_coefficient_eq_head p angle hne (by rw [hclip_id angle h0 h90]; exact hle)
  · -- at or above the last sample
    intro h0 h90 hgt hge
    apply get_coefficient_eq_last p angle hne
    · rw [hclip_id angle h0 h90]
      linarith
    · rw [hclip_id angle h0 h90]
      exact hge
  · -- strictly inside the sampled range: bracketing interpolation
    intro h0 h90 hgt hlt
    have hclampa : max 0 (min 90 angle) = angle := hclip_id angle h0 h90
    exact get_coefficient_interior p angle hne hclampa hgt hlt

/-- Witness for the amended claim C7 on the profile with samples (0°, 1)
and (90°, 0): the returned coefficient at 30° lies in [0, 1]. -/
theorem get_coefficient_spec_witness :
    0 ≤ get_coefficient ⟨[0, 90], [1, 0], 0⟩ 30 ∧
      get_coefficient ⟨[0, 90], [1, 0], 0⟩ 30 ≤ 1 :=
  (get_coefficient_spec ⟨[0, 90], [1, 0], 0⟩ 30 (by decide) (by decide)
    (by decide) (by decide)).1

end Profile

noncomputable section Detector

open scoped Classical

/-- Embeds `glare_analysis.AngularGridPoint` field for field: azimuth and
elevation in degrees, the observation-point number and the owning PV-area
name. The source dataclass has no further fields (in particular no solid
angle). -/
structure AngularGridPoint where
  azimuth : ℝ
  elevation : ℝ
  op_number : ℤ
  pv_area_name : String

/-- The fields of `models.PVArea` that the glare detector and the angular
grid builder read: name, polygon corners, orientation and module type. -/
structure PVArea where
  name : String
  coordinates : List (ℝ × ℝ × ℝ)
  azimuth : ℝ
  tilt : ℝ
  module_type : ℤ

/-- One row of the reflection DataFrame handed to
`detect_glare_vectorized`. `name` is the row's index label: `some t` when
the label is a `pd.Timestamp` (t) and `none` otherwise (e.g. the default
integer index `GlarePipeline` produces); `incidence_angle` and `dni` are
`none` when the DataFrame lacks those columns (the source reads them with
`refl_row.get(…, 0)` / `'dni' in refl_row`). Column values the code only
compares and multiplies are over ℚ, directions feeding the trigonometric
hit test over ℝ. -/
structure ReflRow where
  name : Option ℚ
  pv_area_name : String
  reflection_azimuth : ℝ
  reflection_elevation : ℝ
  sun_azimuth : ℝ
  sun_elevation : ℝ
  incidence_angle : Option ℚ
  dni : Option ℚ

/-- Embeds `glare_analysis.GlareEvent` (the fields `detect_glare_vectorized`
fills; `duration_minutes` keeps its default 1.0). -/
structure GlareEvent where
  timestamp : ℚ
  op_number : ℤ
  pv_area_name : String
  sun_azimuth : ℝ
  sun_elevation : ℝ
  reflection_azimuth : ℝ
  reflection_elevation : ℝ
  incidence_angle : ℚ
  dni : ℚ
  intensity : ℝ
  duration_minutes : ℝ

/-- The configuration of `GlareAnalyzer.__init__`: reflection profiles by
module type, grid width, beam spread, sun angular diameter and the glare
threshold in cd/m². -/
structure GlareAnalyzer where
  reflection_profiles : ℤ → Option ReflectionProfile
  grid_width : ℝ
  beam_spread : ℝ
  sun_angle : ℝ
  glare_threshold : ℝ

/-- `self.angular_threshold = (beam_spread + sun_angle) / 2`. -/
def GlareAnalyzer.angular_threshold (A : GlareAnalyzer) : ℝ :=
  (A.beam_spread + A.sun_angle) / 2

/-- Embeds `GlareAnalyzer.calculate_glare_intensity`: luminance from DNI,
incidence angle, reflection coefficient, area and distance
(`k_dynamic = 130 lm/W`, solid angle `1/distance²`). -/
def calculate_glare_intensity (dni incidence_angle reflection_coeff area distance : ℝ) : ℝ :=
  let cos_inc := Real.cos (rad incidence_angle)
  let irradiance_on_panel := dni * cos_inc
  let k_dynamic : ℝ := 130
  let luminous_flux := irradiance_on_panel * area * reflection_coeff * k_dynamic
  let solid_angle := 1 / (distance * distance)
  luminous_flux * solid_angle / area

/-- The vectorized angular-distance test of `detect_glare_vectorized` for
one (timestep, grid point) pair: all angles to radians,
`delta_az = min |Δaz| (2π - |Δaz|)`, plain `|Δel|`, Euclidean norm compared
against the angular threshold in radians. -/
def vectorHit (A : GlareAnalyzer) (row : ReflRow) (gp : AngularGridPoint) : Prop :=
  let refl_az := rad row.reflection_azimuth
  let refl_el := rad row.reflection_elevation
  let grid_az := rad gp.azimuth
  let grid_el := rad gp.elevation
  let delta_az := min |refl_az - grid_az| (2 * Real.pi - |refl_az - grid_az|)
  let delta_el := |refl_el - grid_el|
  Real.sqrt (delta_az ^ 2 + delta_el ^ 2) ≤ rad A.angular_threshold

/-- The intensity computed for a hit: 0 unless both the `dni` and
`incidence_angle` columns exist and the PV area's module type has a profile,
in which case `calculate_glare_intensity` is called with the interpolated
reflection coefficient and the placeholder area 1 m² and distance 100 m. -/
def hitIntensity (A : GlareAnalyzer) (pv : PVArea) (row : ReflRow) : ℝ :=
  match row.dni, row.incidence_angle with
  | some dni, some inc =>
    match A.reflection_profiles pv.module_type with
    | some profile =>
      calculate_glare_intensity (dni : ℝ) (inc : ℝ)
        ((get_coefficient profile inc : ℚ) : ℝ) 1 100
    | none => 0
  | _, _ => 0

/-- Embeds `GlareAnalyzer.detect_glare_vectorized`. `now` is the wall clock
`pd.Timestamp.now()` reads when a row's index label is not a timestamp.
The source walks the hit matrix chunk by chunk with `np.where`, which
enumerates hit pairs in row-major order, so the chunked loop emits exactly
the events of this flat (timestep, grid point) double loop, in the same
order: per matching row in input order, per matching grid point in grid
order, skip when `incidence_angle > 89`, emit when the computed intensity
reaches `glare_threshold`. -/
def detect_glare_vectorized (A : GlareAnalyzer) (reflection_df : List ReflRow)
    (angular_grid : List AngularGridPoint) (pv : PVArea) (now : ℚ) : List GlareEvent :=
  match angular_grid.filter (fun p => p.pv_area_name == pv.name) with
  | [] => []
  | gp0 :: gps =>
    let grid_points := gp0 :: gps
    let pv_reflections := reflection_df.filter (fun r => r.pv_area_name == pv.name)
    pv_reflections.flatMap (fun row =>
      grid_points.flatMap (fun gp =>
        if vectorHit A row gp then
          if 89 < row.incidence_angle.getD 0 then []
          else
            let intensity := hitIntensity A pv row
            if A.glare_threshold ≤ intensity then
              [{ timestamp := row.name.getD now
                 op_number := gp.op_number
                 pv_area_name := pv.name
                 sun_azimuth := row.sun_azimuth
                 sun_elevation := row.sun_elevation
                 reflection_azimuth := row.reflection_azimuth
                 reflection_elevation := row.reflection_elevation
                 incidence_angle := row.incidence_angle.getD 0
                 dni := row.dni.getD 0
                 intensity := intensity
                 duration_minutes := 1 }]
            else []
        else []))

/-- Claim C1 (amended): every event emitted by `detect_glare_vectorized`
has incidence angle at most 89° (the code skips only angles strictly above
89) and intensity at or above the configured glare threshold. -/
theorem detect_glare_event_invariants (A : GlareAnalyzer) (reflection_df : List ReflRow)
    (angular_grid : List AngularGridPoint) (pv : PVArea) (now : ℚ) (ev : GlareEvent)
    (hev : ev ∈ detect_glare_vectorized A reflection_df angular_grid pv now) :
    ev.incidence_angle ≤ 89 ∧ A.glare_threshold ≤ ev.intensity := by
  unfold detect_glare_vectorized at hev
  rcases heq : angular_grid.filter (fun p => p.pv_area_name == pv.name) with _ | ⟨gp0, gps⟩
  · rw [heq] at hev
    simp at hev
  · rw [heq] at hev
    simp only [List.mem_flatMap] at hev
    obtain ⟨row, hrow, hev⟩ := hev
    obtain ⟨gp, hgp, hev⟩ := hev
    split_ifs at hev with h1 h2 h3
    · simp at hev
    · rw [List.mem_singleton] at hev
      subst hev
      exact ⟨le_of_not_lt h2, h3⟩
    · simp at hev
    · simp at hev

/-- A `GlareAnalyzer` with no profiles, unit beam spread and sun diameter
(angular threshold 1°) and glare threshold 0, used for concrete runs. -/
def cexAnalyzer : GlareAnalyzer := ⟨fun _ => none, 1, 1, 1, 0⟩

/-- A PV area named "A" with module type 0. -/
def cexPV : PVArea := ⟨"A", [], 0, 0, 0⟩

/-- A grid point of PV area "A" at azimuth 0, elevation 0. -/
def cexGrid : AngularGridPoint := ⟨0, 0, 1, "A"⟩

/-- A reflection row of PV area "A" whose reflection direction coincides
with `cexGrid`, whose index label is not a timestamp, with the given
incidence angle and no `dni` column. -/
def cexRow (inc : ℚ) : ReflRow := ⟨none, "A", 0, 0, 0, 0, some inc, none⟩

/-- The event `detect_glare_vectorized` emits for `cexRow inc` when the
wall clock reads `now`. -/
def cexEvent (inc now : ℚ) : GlareEvent := ⟨now, 1, "A", 0, 0, 0, 0, inc, 0, 0, 1⟩

lemma detect_cex_eval (inc : ℚ) (hinc : ¬(89 < inc)) (now : ℚ) :
    detect_glare_vectorized cexAnalyzer [cexRow inc] [cexGrid] cexPV now =
      [cexEvent inc now] := by
  have hthr : cexAnalyzer.angular_threshold = 1 := by
    unfold GlareAnalyzer.angular_threshold cexAnalyzer
    norm_num
  have hhit : vectorHit cexAnalyzer (cexRow inc) cexGrid := by
    unfold vectorHit cexRow cexGrid
    simp only [hthr, rad_zero, sub_zero, abs_zero]
    rw [min_eq_left (by positivity)]
    norm_num
    unfold rad
    positivity
  have hfilterg : ([cexGrid].filter (fun p => p.pv_area_name == cexPV.name)) = [cexGrid] := by
    simp [cexGrid, cexPV]
  have hfilterr : (([cexRow inc] : List ReflRow).filter
      (fun r => r.pv_area_name == cexPV.name)) = [cexRow inc] := by
    simp [cexRow, cexPV]
  unfold detect_glare_vectorized
  rw [hfilterg]
  simp only [hfilterr, List.flatMap_cons, List.flatMap_nil, List.append_nil]
  rw [if_pos hhit]
  rw [if_neg (show ¬(89 < (cexRow inc).incidence_angle.getD 0) from hinc)]
  rw [if_pos (show cexAnalyzer.glare_threshold ≤ hitIntensity cexAnalyzer cexPV (cexRow inc) by
    unfold hitIntensity cexRow cexAnalyzer
    norm_num)]
  rfl

/-- Claim C1 (counterexample): a timestep whose incidence angle is exactly
89° and whose reflection direction coincides with a grid point is emitted
as an event (the code only skips angles strictly above 89), so an event
with incidence angle not strictly below 89 exists. -/
theorem detect_glare_incidence_89_counterexample :
    detect_glare_vectorized cexAnalyzer [cexRow 89] [cexGrid] cexPV 0 = [cexEvent 89 0] ∧
    ¬((cexEvent 89 0).incidence_angle < 89) := by
  refine ⟨detect_cex_eval 89 (by norm_num) 0, ?_⟩
  unfold cexEvent
  norm_num

/-- Witness for the amended claim C1 at a concrete detector run. -/
theorem detect_glare_event_invariants_witness :
    cexEvent 89 0 ∈ detect_glare_vectorized cexAnalyzer [cexRow 89] [cexGrid] cexPV 0 ∧
    ((cexEvent 89 0).incidence_angle ≤ 89 ∧
      cexAnalyzer.glare_threshold ≤ (cexEvent 89 0).intensity) := by
  have hmem : cexEvent 89 0 ∈
      detect_glare_vectorized cexAnalyzer [cexRow 89] [cexGrid] cexPV 0 := by
    rw [detect_cex_eval 89 (by norm_num) 0]
    exact List.mem_singleton_self _
  exact ⟨hmem, detect_glare_event_invariants cexAnalyzer [cexRow 89] [cexGrid] cexPV 0
    (cexEvent 89 0) hmem⟩

/-- Claim C5 (failing-input evaluation): on a reflection DataFrame whose
row labels are not timestamps — exactly what `GlarePipeline` passes in —
the emitted event's timestamp is the wall clock `pd.Timestamp.now()`, so
two runs on identical inputs at different wall-clock instants produce
different event lists. -/
theorem detect_glare_wall_clock_nondeterminism :
    detect_glare_vectorized cexAnalyzer [cexRow 10] [cexGrid] cexPV 0 ≠
      detect_glare_vectorized cexAnalyzer [cexRow 10] [cexGrid] cexPV 1 := by
  rw [detect_cex_eval 10 (by norm_num) 0, detect_cex_eval 10 (by norm_num) 1]
  intro h
  have h2 := List.head_eq_of_cons_eq h
  have h3 := congrArg GlareEvent.timestamp h2
  unfold cexEvent at h3
  norm_num at h3

end Detector

noncomputable section AngularGrid

/-- Embeds `geometry.haversine`: great-circle distance in metres. -/
def haversine (lat1 lon1 lat2 lon2 : ℝ) : ℝ :=
  let lat1r := rad lat1
  let lon1r := rad lon1
  let lat2r := rad lat2
  let lon2r := rad lon2
  let dlat := lat2r - lat1r
  let dlon := lon2r - lon1r
  let a := Real.sin (dlat / 2) ^ 2 +
    Real.cos lat1r * Real.cos lat2r * Real.sin (dlon / 2) ^ 2
  let c := 2 * atan2 (Real.sqrt a) (Real.sqrt (1 - a))
  6371000 * c

/-- Embeds `geometry.calculate_azimuth`: initial great-circle bearing from
point 1 to point 2, normalized to [0, 360) by `(deg + 360) % 360`. -/
def calculate_azimuth (lat1 lon1 lat2 lon2 : ℝ) : ℝ :=
  let lat1r := rad lat1
  let lon1r := rad lon1
  let lat2r := rad lat2
  let lon2r := rad lon2
  let dlon := lon2r - lon1r
  let y := Real.sin dlon * Real.cos lat2r
  let x := Real.cos lat1r * Real.sin lat2r -
    Real.sin lat1r * Real.cos lat2r * Real.cos dlon
  pymod (deg (atan2 y x) + 360) 360

/-- Embeds `models.ObservationPoint`: a name and a coordinate
(latitude, longitude, ground elevation). -/
structure ObservationPoint where
  name : String
  latitude : ℝ
  longitude : ℝ
  ground_elevation : ℝ

/-- One step of the azimuth-unwrap loop of `generate_angular_grid`:
`while az[i] - az[i-1] > 180: az[i] -= 360` followed by
`while az[i] - az[i-1] < -180: az[i] += 360`, written in closed form (the
first loop lands the delta in (-180, 180], the second in [-180, 180)). -/
def unwrapStep (prev a : ℝ) : ℝ :=
  if 180 < a - prev then a - 360 * ⌈(a - prev - 180) / 360⌉
  else if a - prev < -180 then a + 360 * ⌈(-180 - (a - prev)) / 360⌉
  else a

/-- The unwrap loop over the tail of the corner-azimuth list: each entry is
adjusted relative to its already-adjusted predecessor. -/
def unwrapFrom (prev : ℝ) : List ℝ → List ℝ
  | [] => []
  | a :: rest =>
    let adjusted := unwrapStep prev a
    adjusted :: unwrapFrom adjusted rest

/-- The full unwrap: the first corner azimuth is kept as is. -/
def unwrapAzimuths : List ℝ → List ℝ
  | [] => []
  | a :: rest => a :: unwrapFrom a rest

/-- The values visited by `while v <= hi: …; v += s` started at `lo`: for a
positive step these are `lo, lo + s, …` up to `hi` (⌊(hi - lo)/s⌋ + 1 of
them); an empty list for `lo > hi`. The source would not terminate for a
non-positive step, mapped to the empty list here. -/
def latticeSteps (lo hi s : ℝ) : List ℝ :=
  if 0 < s then
    if lo ≤ hi then (List.range (⌊(hi - lo) / s⌋.toNat + 1)).map (fun i => lo + i * s)
    else []
  else []

/-- The bounding-box and lattice part of `GlareAnalyzer.generate_angular_grid`,
taking the unwrapped corner azimuths and the corner elevations:
`np.min`/`np.max` of the corner angles expanded by the angular threshold on
all sides, then the `while az <= max_az` / `while el <= max_el` double
loop; the stored azimuth is normalized by `% 360`, `op_number` is the
hard-coded 1 (the source comment reads "Default to 1, should be passed
from calling function") and the point records the owning PV-area name. An
empty corner list is mapped to the empty grid (the source raises on
`np.min` of an empty array; `models.PVArea` requires ≥ 3 corners). -/
def angularLattice (A : GlareAnalyzer) (pvname : String) (angular_spacing : ℝ) :
    List ℝ → List ℝ → List AngularGridPoint
  | a0 :: arest, e0 :: erest =>
    let min_az := arest.foldl min a0 - A.angular_threshold
    let max_az := arest.foldl max a0 + A.angular_threshold
    let min_el := erest.foldl min e0 - A.angular_threshold
    let max_el := erest.foldl max e0 + A.angular_threshold
    (latticeSteps min_az max_az angular_spacing).flatMap (fun az =>
      (latticeSteps min_el max_el angular_spacing).map (fun el =>
        { azimuth := pymod az 360
          elevation := el
          op_number := 1
          pv_area_name := pvname }))
  | _, _ => []

/-- Embeds `GlareAnalyzer.generate_angular_grid`: bearing and elevation
angle from the observer to every polygon corner, azimuth unwrapping across
the 0°/360° seam, then the bounding box and lattice of `angularLattice`. -/
def generate_angular_grid (A : GlareAnalyzer) (observer : ObservationPoint)
    (pv : PVArea) (angular_spacing : ℝ) : List AngularGridPoint :=
  let azel := pv.coordinates.map (fun corner =>
    (calculate_azimuth observer.latitude observer.longitude corner.1 corner.2.1,
      deg (atan2 (corner.2.2 - observer.ground_elevation)
        (haversine observer.latitude observer.longitude corner.1 corner.2.1))))
  angularLattice A pv.name angular_spacing
    (unwrapAzimuths (azel.map Prod.fst)) (azel.map Prod.snd)

lemma angularLattice_op_number_one (A : GlareAnalyzer) (pvname : String)
    (angular_spacing : ℝ) (azimuths elevations : List ℝ) :
    ((angularLattice A pvname angular_spacing azimuths elevations).all
      (fun p => p.op_number == 1)) = true := by
  rcases azimuths with _ | ⟨a0, arest⟩ <;> rcases elevations with _ | ⟨e0, erest⟩ <;>
    simp [angularLattice, List.all_eq_true, List.mem_flatMap, List.mem_map]

/-- Claim C6 (failing-input evaluation): every grid point
`generate_angular_grid` produces carries `op_number = 1`, for every
observer — the owning observer's identity is never recorded (and the
`AngularGridPoint` record has no solid-angle field at all). -/
theorem generate_angular_grid_op_number_always_one (A : GlareAnalyzer)
    (observer : ObservationPoint) (pv : PVArea) (angular_spacing : ℝ) :
    ((generate_angular_grid A observer pv angular_spacing).all
      (fun p => p.op_number == 1)) = true :=
  angularLattice_op_number_one A pv.name angular_spacing _ _

end AngularGrid

end GlareCheck
